import Mathlib

/-!
Verification development for the `ai-data-engineer-roadmap` repository.

The development shallowly embeds the parts of the repository that the
specification's claims are about:

* `DataCleaningPipeline` from
  `article-005-data-transformation-cleaning/production_cleaning_pipeline.py`
  (steps `analyze_data_quality`, `handle_missing_values`, `remove_duplicates`,
  `handle_outliers`, `clean_text_data`, `optimize_data_types`, `run`);
* `APIClient._make_request` from `article-004-file-handling-apis/api_client.py`;
* `calculate_profit_margin` and `calculate_discount` from
  `article-003-functions-modules/data_utils/calculators.py`;
* `DataValidator` from
  `article-002-control-flow-validation/production_validator.py` and
  `validate_quantity` from `article-003-functions-modules/data_utils/validators.py`.

A pandas DataFrame is modelled as a list of typed columns: a numeric column
holds `Option ℚ` cells (with `none` standing for `NaN`) and an object (text)
column holds `Option String` cells.  Machine floats are idealised as exact
rationals; every statistical formula used by the code (median, quartiles with
linear interpolation, IQR capping) is exact over ℚ, so the idealisation is
faithful up to floating-point rounding.  A library call that raises is
modelled with `Except String`.
-/

/-- Decidable equality of `Except` results, for evaluating the model on
concrete inputs. -/
instance {ε α : Type} [DecidableEq ε] [DecidableEq α] : DecidableEq (Except ε α) := fun a b =>
  match a, b with
  | .error e, .error f => if h : e = f then .isTrue (by rw [h]) else .isFalse (by simp [h])
  | .error _, .ok _ => .isFalse (by simp)
  | .ok _, .error _ => .isFalse (by simp)
  | .ok a, .ok b => if h : a = b then .isTrue (by rw [h]) else .isFalse (by simp [h])

/-- Tests whether `pat` begins the character list `l`. -/
def startsL (pat : List Char) (l : List Char) : Bool :=
  match pat, l with
  | [], _ => true
  | _ :: _, [] => false
  | a :: pat', b :: l' => a = b && startsL pat' l'

/-- Tests whether `pat` occurs contiguously inside the character list `l`. -/
def hasSubL (pat : List Char) : List Char → Bool
  | [] => pat.isEmpty
  | c :: cs => startsL pat (c :: cs) || hasSubL pat cs

/-- Python `str.lower()` (characterwise, matching `Char.toLower` on the data
in scope). -/
def pyLower (s : String) : String := ⟨s.toList.map Char.toLower⟩

/-- Python `str.strip()`: drop leading and trailing whitespace. -/
def trimChars (l : List Char) : List Char :=
  ((l.dropWhile Char.isWhitespace).reverse.dropWhile Char.isWhitespace).reverse

/-- Python `str.strip()` on strings. -/
def pyTrim (s : String) : String := ⟨trimChars s.toList⟩

namespace DataCleaningPipeline

/-- Pipeline configuration, mirroring `DataCleaningPipeline.get_default_config`.
All claims fix the default configuration, and the step definitions below read
these default values (the unexercised strategy branches are noted in place). -/
structure Config where
  numeric_strategy : String
  categorical_strategy : String
  drop_threshold : ℚ
  dup_keep : String
  outlier_method : String
  outlier_threshold : ℚ
  auto_convert : Bool
  lowercase_emails : Bool
  standardize_phones : Bool
  title_case_names : Bool
deriving DecidableEq

/-- Default configuration returned by `get_default_config`. -/
def defaultConfig : Config :=
  ⟨"median", "mode", 1/2, "first", "iqr", 3/2, true, true, true, true⟩

/-- Column of a DataFrame: a name together with typed cells.  `none` is a
missing value (`NaN`/`None`).  `num` corresponds to a numpy-numeric dtype
(selected by `select_dtypes(include=[np.number])`), `str` to an object dtype
(selected by `select_dtypes(include=['object'])`). -/
inductive Column where
  | num (name : String) (cells : List (Option ℚ))
  | str (name : String) (cells : List (Option String))
deriving DecidableEq

/-- Table (DataFrame): a list of columns. -/
abbrev Table := List Column

/-- Name of a column. -/
def Column.cname : Column → String
  | .num n _ => n
  | .str n _ => n

/-- Number of cells of a column. -/
def Column.clen : Column → ℕ
  | .num _ cs => cs.length
  | .str _ cs => cs.length

/-- Cells of a numeric column (`[]` for a text column). -/
def Column.numCells : Column → List (Option ℚ)
  | .num _ cs => cs
  | .str _ _ => []

/-- Cells of a text column (`[]` for a numeric column). -/
def Column.strCells : Column → List (Option String)
  | .num _ _ => []
  | .str _ cs => cs

/-- Python `sub in s.lower()`: case-insensitive substring test on the column
name, as used to pick out email/name/phone columns. -/
def nameHas (sub nm : String) : Bool :=
  hasSubL sub.toList (pyLower nm).toList

/-- Present (non-null) values of a numeric column, in order; pandas
statistics (`median`, `quantile`, `mode`) skip `NaN`. -/
def nonNullQ (cs : List (Option ℚ)) : List ℚ := cs.filterMap id

/-- Present (non-null) values of a text column, in order. -/
def nonNullS (cs : List (Option String)) : List String := cs.filterMap id

/-- Ascending sort of the values, as used by order statistics. -/
def sortQ (xs : List ℚ) : List ℚ := List.insertionSort (· ≤ ·) xs

/-- Linear interpolation at position `units/4` of a sorted list `s`, as in
`numpy.percentile(interpolation='linear')`: with `i = ⌊units/4⌋` and
`γ = units/4 - i`, the value is `(1-γ)·s[i] + γ·s[i+1]` (and the last element
once `i+1` runs past the end, which happens exactly at position `len - 1`).
The position is carried in quarter units (a natural number) because every
quantile the pipeline takes — 0.25, 0.5, 0.75 — is a multiple of 1/4, which
keeps the floor and the fractional part in exact `ℕ` arithmetic. -/
def interpQ (s : List ℚ) (units : ℕ) : ℚ :=
  let i := units / 4
  let γ : ℚ := ((units % 4 : ℕ) : ℚ) / 4
  if i + 1 < s.length then (1 - γ) * s.getD i 0 + γ * s.getD (i + 1) 0
  else s.getD (s.length - 1) 0

/-- Model of `Series.quantile(k/4)` (for `k = 1, 2, 3`: the quartiles and the median)
with the default linear interpolation: sort the present values and
interpolate at position `(k/4) * (n - 1)`, i.e. `k*(n-1)` quarter units.  On
an all-null column the result is `NaN`, modelled as `none`. -/
def quantileQuarters (cs : List (Option ℚ)) (k : ℕ) : Option ℚ :=
  let s := sortQ (nonNullQ cs)
  if s.length = 0 then none
  else some (interpQ s (k * (s.length - 1)))

/-- Model of `Series.median()` — the same as `quantile(0.5)` (2 quarters) with linear
interpolation: the mean of the two middle order statistics for an even
count. -/
def medianQ (cs : List (Option ℚ)) : Option ℚ := quantileQuarters cs 2

/-- Lexicographic `≤` on strings by character code, matching Python's string
order on the ASCII data in scope (used to sort `Series.mode()` output). -/
def strLeChars : List Char → List Char → Bool
  | [], _ => true
  | _ :: _, [] => false
  | a :: as', b :: bs' =>
    if a = b then strLeChars as' bs'
    else decide (a < b)

/-- String `≤` helper for sorting mode candidates. -/
def strLe (a b : String) : Bool := strLeChars a.toList b.toList

/-- Model of `Series.mode()` on the present values: the most frequent values, sorted
ascending (pandas returns them in sorted order, so `mode()[0]` is the
smallest of the most frequent values). -/
def modeS (vs : List String) : List String :=
  let uniq := vs.dedup
  let top := (uniq.map (fun v => vs.count v)).foldr max 0
  List.insertionSort (fun a b => strLe a b = true) (uniq.filter (fun v => vs.count v = top))

/-- Missing-value handling for one numeric column
(`handle_missing_values`, numeric branch).  The default
`numeric_strategy` is `'median'`; the `'mean'` and constant-0 branches of the
source are not exercised by the default configuration the claims fix.  When
`missing_count > 0` the code computes the median of the column and fills; the
median of an all-null column is `NaN` and `fillna(NaN)` changes nothing. -/
def fillNumCells (cs : List (Option ℚ)) : List (Option ℚ) :=
  let missing := cs.countP (fun c => c.isNone)
  if missing > 0 then
    match medianQ cs with
    | some m => cs.map (fun c => some (c.getD m))
    | none => cs
  else cs

/-- Missing-value handling for one object column
(`handle_missing_values`, categorical branch).  The default
`categorical_strategy` is `'mode'`: fill with `mode()[0]` when the mode is
nonempty and with `'Unknown'` otherwise. -/
def fillStrCells (cs : List (Option String)) : List (Option String) :=
  let missing := cs.countP (fun c => c.isNone)
  if missing > 0 then
    let fv := match modeS (nonNullS cs) with
      | [] => "Unknown"
      | v :: _ => v
    cs.map (fun c => some (c.getD fv))
  else cs

/-- Columnwise action of `handle_missing_values`. -/
def fillCol : Column → Column
  | .num n cs => .num n (fillNumCells cs)
  | .str n cs => .str n (fillStrCells cs)

/-- Step `handle_missing_values`: fills numeric columns with their median and
object columns with their mode (default configuration).  The source loops
over the numeric columns and then over the object columns; each column is
transformed from its own cells only, so a single columnwise map is the same
function. -/
def handle_missing_values (t : Table) : Table := t.map fillCol

/-- Typed cell of a row, used for row comparison in `drop_duplicates`. -/
inductive CellV where
  | n (c : Option ℚ)
  | s (c : Option String)
deriving DecidableEq

/-- Number of rows of the table (all columns of a DataFrame have the same
length). -/
def nRows (t : Table) : ℕ := (t.map Column.clen).foldr max 0

/-- Row `i` of the table, as the tuple of its cells.  Pandas treats `NaN` as
equal to `NaN` when comparing rows for `duplicated`/`drop_duplicates`, which
the decidable equality of `Option` cells reproduces. -/
def rowAt (t : Table) (i : ℕ) : List CellV :=
  t.map (fun c => match c with
    | .num _ cs => .n (cs.getD i none)
    | .str _ cs => .s (cs.getD i none))

/-- Scan of the row indices computing `~df.duplicated()` with `keep='first'`:
a row is kept iff its full tuple of cells has not appeared at an earlier
index. -/
def dupScan (t : Table) : List ℕ → List (List CellV) → List Bool
  | [], _ => []
  | i :: is, seen =>
    let r := rowAt t i
    if r ∈ seen then false :: dupScan t is seen
    else true :: dupScan t is (r :: seen)

/-- Keep-mask of `drop_duplicates(subset=None, keep='first')` (the default
configuration: all columns form the key and the first occurrence is kept). -/
def keepFlags (t : Table) : List Bool := dupScan t (List.range (nRows t)) []

/-- Filters cells by a keep-mask. -/
def filterCells {α : Type} (flags : List Bool) (cs : List α) : List α :=
  (flags.zip cs).filterMap (fun p => if p.1 then some p.2 else none)

/-- Step `remove_duplicates`: `df.drop_duplicates(subset=None, keep='first')` under
the default configuration — drops every row whose full tuple of cells already
occurred at an earlier index. -/
def remove_duplicates (t : Table) : Table :=
  let flags := keepFlags t
  t.map (fun c => match c with
    | .num n cs => .num n (filterCells flags cs)
    | .str n cs => .str n (filterCells flags cs))

/-- IQR outlier capping of one numeric column (`handle_outliers` with the
default `method='iqr'`, `threshold=1.5`): compute `Q1`, `Q3`, and
`IQR = Q3 - Q1` of the column, and when any present value falls outside
`[Q1 - 1.5·IQR, Q3 + 1.5·IQR]`, clip every value into that interval
(`Series.clip(lower, upper)` = `min (max x lower) upper`; `NaN` stays `NaN`
and compares false against the bounds, exactly as in pandas).  On an all-null
column the quantiles are `NaN`, no comparison holds, and nothing changes. -/
def clipOutlierCells (cs : List (Option ℚ)) : List (Option ℚ) :=
  match quantileQuarters cs 1, quantileQuarters cs 3 with
  | some q1, some q3 =>
    let iqr := q3 - q1
    let lo := q1 - defaultConfig.outlier_threshold * iqr
    let hi := q3 + defaultConfig.outlier_threshold * iqr
    let outCount := cs.countP (fun c => match c with
      | some v => decide (v < lo ∨ hi < v)
      | none => false)
    if outCount > 0 then cs.map (Option.map (fun v => min (max v lo) hi)) else cs
  | _, _ => cs

/-- Columnwise action of `handle_outliers`: numeric columns are capped, object
columns are untouched (`select_dtypes(include=[np.number])`). -/
def outlierCol : Column → Column
  | .num n cs => .num n (clipOutlierCells cs)
  | .str n cs => .str n cs

/-- Step `handle_outliers` (default configuration `method='iqr'`,
`threshold=1.5`). -/
def handle_outliers (t : Table) : Table := t.map outlierCol

/-- Message of the `AttributeError` pandas raises when the `.str` accessor is
used on a numeric column. -/
def strAccessorMsg : String := "Can only use .str accessor with string values!"

/-- Python `str.title()` on a character list: a letter is uppercased when the
previous character is not a letter and lowercased otherwise (ASCII data in
scope). -/
def titleChars : Bool → List Char → List Char
  | _, [] => []
  | prevAlpha, ch :: rest =>
    let ch' := if ch.isAlpha then (if prevAlpha then ch.toLower else ch.toUpper) else ch
    ch' :: titleChars ch.isAlpha rest

/-- Python `str.title()`. -/
def titlecase (s : String) : String := ⟨titleChars false s.toList⟩

/-- Digits of a string, i.e. `str.replace(r'\D', '', regex=True)`. -/
def onlyDigits (s : String) : String := ⟨s.toList.filter Char.isDigit⟩

/-- Sequential transformation of the columns of the table, aborting at the
first column whose transformation raises — the source loops over the columns
of `df_cleaned` assigning one at a time, and an exception aborts the loop. -/
def tmapE (f : Column → Except String Column) : Table → Except String Table
  | [] => .ok []
  | c :: cs =>
    match f c with
    | .error e => .error e
    | .ok c' =>
      match tmapE f cs with
      | .error e => .error e
      | .ok cs' => .ok (c' :: cs')

/-- Same loop, but recording the table as it stands when an exception aborts
it: the columns before the failing one are already transformed in place, the
failing one and the rest are untouched. -/
def tmapAttempt (f : Column → Except String Column) : Table → Table
  | [] => []
  | c :: cs =>
    match f c with
    | .error _ => c :: cs
    | .ok c' => c' :: tmapAttempt f cs

/-- Email pass of `clean_text_data` on one column
(`df[col].str.lower().str.strip()` for every column whose lowercased name
contains `'email'`; the default `lowercase_emails` is `True`).  The `.str`
accessor raises `AttributeError` on a numeric column. -/
def emailStep (c : Column) : Except String Column :=
  if nameHas "email" c.cname then
    match c with
    | .num _ _ => .error strAccessorMsg
    | .str n cs => .ok (.str n (cs.map (Option.map (fun s => pyTrim (pyLower s)))))
  else .ok c

/-- Name pass of `clean_text_data` on one column
(`df[col].str.strip().str.title()` for every column whose lowercased name
contains `'name'`; the default `title_case_names` is `True`). -/
def nameStep (c : Column) : Except String Column :=
  if nameHas "name" c.cname then
    match c with
    | .num _ _ => .error strAccessorMsg
    | .str n cs => .ok (.str n (cs.map (Option.map (fun s => titlecase (pyTrim s)))))
  else .ok c

/-- Phone pass of `clean_text_data` on one column
(`df[col].astype(str).str.replace(r'\D', '', regex=True)` for every column
whose lowercased name contains `'phone'`; the default `standardize_phones` is
`True`).  `astype(str)` never raises: it renders every cell as a string (a
missing value becomes the literal string `"nan"`, whose non-digits are then
stripped away), so a numeric phone column silently becomes an object column.
`ratDigits` stands in for Python's decimal rendering of a float; only its
digit characters survive, and no claim depends on them. -/
def ratDigits (q : ℚ) : String := toString q

/-- Phone pass on one column (total: `astype(str)` never raises). -/
def phoneStep (c : Column) : Column :=
  if nameHas "phone" c.cname then
    match c with
    | .num n cs =>
      .str n (cs.map (fun cell => some (onlyDigits (match cell with
        | some q => ratDigits q
        | none => "nan"))))
    | .str n cs => .str n (cs.map (fun cell => some (onlyDigits (cell.getD "nan"))))
  else c

/-- Tests that a column is not a numeric column with a phone-matching name. -/
def phoneFreeCol : Column → Bool
  | .num n _ => !(nameHas "phone" n)
  | .str _ _ => true

/-- Tests that no numeric column has a phone-matching name: on such tables the
phone pass of `clean_text_data` does not convert a numeric column into an
object column, which is what makes `handle_outliers` and `clean_text_data`
commute. -/
def noNumericPhoneCol (t : Table) : Bool := t.all phoneFreeCol

/-- Email pass over the whole table. -/
def emailPass (t : Table) : Except String Table := tmapE emailStep t

/-- Name pass over the whole table. -/
def namePass (t : Table) : Except String Table := tmapE nameStep t

/-- Phone pass over the whole table. -/
def phonePass (t : Table) : Table := t.map phoneStep

/-- Step `clean_text_data`: lowercase-and-trim email columns, trim-and-titlecase
name columns, digit-strip phone columns, in that order.  The method contains
no exception handler: an `AttributeError` raised by the `.str` accessor on a
numeric email or name column propagates to the caller. -/
def clean_text_data (t : Table) : Except String Table :=
  match emailPass t with
  | .error e => .error e
  | .ok t1 =>
    match namePass t1 with
    | .error e => .error e
    | .ok t2 => .ok (phonePass t2)

/-- Table held by the working copy `df_cleaned` after the body of
`clean_text_data` has run — to completion, or up to the column where an
exception aborted it. -/
def cleanTextAttempt (t : Table) : Table :=
  match emailPass t with
  | .error _ => tmapAttempt emailStep t
  | .ok t1 =>
    match namePass t1 with
    | .error _ => tmapAttempt nameStep t1
    | .ok t2 => phonePass t2

/-- Step `optimize_data_types`: downcasts `int64`/`float64` columns with
`pd.to_numeric(downcast=...)` and converts object columns whose unique-value
ratio is below 0.5 to `category`.  These conversions change the memory
representation of the columns; at the level of the value model every cell
keeps its value (float32 rounding is a floating-point representation detail
outside this exact-rational model), so the step maps each column to itself. -/
def optimize_data_types (t : Table) : Table := t.map (fun c => c)

/-- Data-quality statistics computed by `analyze_data_quality` (the memory
figure is a representation-level quantity outside the value model). -/
structure QStats where
  total_rows : ℕ
  total_columns : ℕ
  missing_values : ℕ
  duplicate_rows : ℕ
deriving DecidableEq

/-- Count of missing cells of a column. -/
def Column.missing : Column → ℕ
  | .num _ cs => cs.countP (fun c => c.isNone)
  | .str _ cs => cs.countP (fun c => c.isNone)

/-- Step `analyze_data_quality`: computes and logs the dataset statistics; the
table itself is not modified (the method only reads `df`). -/
def analyze_data_quality (t : Table) : QStats :=
  { total_rows := nRows t
    total_columns := t.length
    missing_values := (t.map Column.missing).sum
    duplicate_rows := (keepFlags t).count false }

/-- Method `run`: executes the pipeline — quality analysis, then the five
transforming steps in their fixed order, rebinding `df` after each one — and
returns the resulting table together with the `cleaning_report['steps']`
names logged by `log_step` (each step logs exactly once, at its end, so an
exception inside `clean_text_data` leaves only the four earlier entries). -/
def run (df : Table) : Except String Table × List String :=
  let _stats := analyze_data_quality df
  let df1 := handle_missing_values df
  let df2 := remove_duplicates df1
  let df3 := handle_outliers df2
  match clean_text_data df3 with
  | .error e =>
    (.error e, ["analyze_quality", "handle_missing", "remove_duplicates", "handle_outliers"])
  | .ok df4 =>
    let df5 := optimize_data_types df4
    (.ok df5,
      ["analyze_quality", "handle_missing", "remove_duplicates", "handle_outliers",
       "clean_text", "optimize_types"])

/-- Heap of DataFrames, for stating what the steps mutate: a Python frame is
a reference into the store. -/
abbrev Store := List Table

/-- Shape `df.copy()` followed by an in-place transformation of the copy (the shape
of `handle_missing_values`, `handle_outliers`, `clean_text_data` and
`optimize_data_types`): allocate a fresh reference holding a copy of the
frame at `r`, mutate the fresh frame cell-by-cell until it holds `f` of the
original, and return the fresh reference. -/
def copyTransformMut (f : Table → Table) (σ : Store) (r : ℕ) : Store × ℕ :=
  let df := σ.getD r []
  let σ1 := σ ++ [df]
  let rc := σ.length
  ((σ1.set rc (f df)), rc)

/-- Step `handle_missing_values` at the store level: `df_cleaned = df.copy()`, then
in-place `fillna` on the copy's columns. -/
def handleMissingMut (σ : Store) (r : ℕ) : Store × ℕ :=
  copyTransformMut handle_missing_values σ r

/-- Step `remove_duplicates` at the store level: `df.drop_duplicates(...)` builds a
new frame (no copy-then-mutate; the input frame is only read). -/
def removeDuplicatesMut (σ : Store) (r : ℕ) : Store × ℕ :=
  let df := σ.getD r []
  ((σ ++ [remove_duplicates df]), σ.length)

/-- Step `handle_outliers` at the store level: copy, then in-place `clip` on the
copy's numeric columns. -/
def handleOutliersMut (σ : Store) (r : ℕ) : Store × ℕ :=
  copyTransformMut handle_outliers σ r

/-- Step `clean_text_data` at the store level: copy, then in-place column
assignments on the copy; an `AttributeError` aborts the loop mid-way (the
copy keeps the columns already assigned) and propagates, so no reference is
returned in that case. -/
def cleanTextMut (σ : Store) (r : ℕ) : Store × Except String ℕ :=
  let df := σ.getD r []
  let σ1 := σ ++ [df]
  let rc := σ.length
  match clean_text_data df with
  | .ok t => ((σ1.set rc t), .ok rc)
  | .error e => ((σ1.set rc (cleanTextAttempt df)), .error e)

/-- Step `optimize_data_types` at the store level: copy, then in-place dtype
conversions on the copy. -/
def optimizeMut (σ : Store) (r : ℕ) : Store × ℕ :=
  copyTransformMut optimize_data_types σ r

end DataCleaningPipeline

namespace APIClient

/-- Body of an HTTP response: either a JSON-parseable body (carrying the
parsed value, abstracted as a string) or a plain-text body on which
`response.json()` raises `json.JSONDecodeError`. -/
inductive Body where
  | jsonBody (v : String)
  | textBody (s : String)
deriving DecidableEq

/-- Outcome of one `session.request` call, as observed by `_make_request`'s
handlers: a response whose `raise_for_status()` passes, a
`requests.exceptions.Timeout`, an HTTP-error status
(`requests.exceptions.HTTPError` from `raise_for_status`), or a generic
`requests.exceptions.RequestException`. -/
inductive Outcome where
  | success (b : Body)
  | timeout
  | httpError (msg : String)
  | reqError (msg : String)
deriving DecidableEq

/-- Exceptions `_make_request` can let escape. -/
inductive Exc where
  | timeoutExc
  | httpExc (msg : String)
  | reqExc (msg : String)
deriving DecidableEq

/-- Value returned by `_make_request` on success: `response.json()` when the
body parses, `{'text': response.text}` otherwise. -/
inductive RetVal where
  | jsonVal (v : String)
  | textDict (s : String)
deriving DecidableEq

/-- Result of `_make_request`: a returned value, a raised exception, or
Python's implicit `None` when the `for` loop body never runs
(only possible with `max_retries = 0`). -/
inductive MRes where
  | ok (r : RetVal)
  | raised (e : Exc)
  | pyNone
deriving DecidableEq

/-- Parse of a successful response body. -/
def parseBody : Body → RetVal
  | .jsonBody v => .jsonVal v
  | .textBody s => .textDict s

/-- Outcomes on which `_make_request` sleeps and retries (timeouts and
generic request errors); HTTP-error statuses and successes stop the loop. -/
def isRetryable : Outcome → Bool
  | .timeout => true
  | .reqError _ => true
  | .success _ => false
  | .httpError _ => false

/-- What `_make_request` does at the attempt that ends the loop: return the
parsed body on success, raise `HTTPError` immediately on a bad status, and
re-raise the timeout / request error when it occurs on the final attempt. -/
def stopResult : Outcome → MRes
  | .success b => .ok (parseBody b)
  | .httpError m => .raised (.httpExc m)
  | .timeout => .raised .timeoutExc
  | .reqError m => .raised (.reqExc m)

/-- Loop `for attempt in range(1, max_retries + 1)` of `_make_request`.
`world a` is the outcome of the request made on attempt `a`.  Returns the
result together with the backoff sleeps performed (`time.sleep(2 ** attempt)`
before each retry) and the attempts actually made. -/
def attemptLoop (world : ℕ → Outcome) (maxRetries : ℕ) :
    List ℕ → MRes × List ℕ × List ℕ
  | [] => (.pyNone, [], [])
  | a :: rest =>
    match world a with
    | .success b => (.ok (parseBody b), [], [a])
    | .httpError m => (.raised (.httpExc m), [], [a])
    | .timeout =>
      if a = maxRetries then (.raised .timeoutExc, [], [a])
      else
        let r := attemptLoop world maxRetries rest
        (r.1, 2 ^ a :: r.2.1, a :: r.2.2)
    | .reqError m =>
      if a = maxRetries then (.raised (.reqExc m), [], [a])
      else
        let r := attemptLoop world maxRetries rest
        (r.1, 2 ^ a :: r.2.1, a :: r.2.2)

/-- Method `_make_request` with retry logic: run the attempt loop over the attempt
numbers `1, …, max_retries`. -/
def make_request (world : ℕ → Outcome) (maxRetries : ℕ) : MRes × List ℕ × List ℕ :=
  attemptLoop world maxRetries (List.range' 1 maxRetries)

end APIClient

namespace Calculators

/-- Function `calculate_profit(revenue, cost)`. -/
def calculate_profit (revenue cost : ℚ) : ℚ := revenue - cost

/-- Function `calculate_profit_margin(revenue, cost)`: returns `0.0` when
`revenue == 0`, and `profit / revenue` otherwise. -/
def calculate_profit_margin (revenue cost : ℚ) : ℚ :=
  if revenue = 0 then 0
  else calculate_profit revenue cost / revenue

/-- Function `calculate_discount(original_price, discount_percentage)`: returns the
pair `(discounted_price, discount_amount)`. -/
def calculate_discount (original_price discount_percentage : ℚ) : ℚ × ℚ :=
  let discount_amount := original_price * (discount_percentage / 100)
  let discounted_price := original_price - discount_amount
  (discounted_price, discount_amount)

end Calculators

namespace DataUtils

/-- Function `validators.validate_quantity(quantity, min_qty=1, max_qty=10000)` from
`data_utils/validators.py`.  The `int(quantity)` conversion of the source is
the identity on the integer quantities modelled here (its failure branch
concerns unparseable strings, outside this claim's scope). -/
def validate_quantity (quantity min_qty max_qty : ℤ) : Bool × Option String :=
  if quantity < min_qty then (false, some s!"Quantity below minimum: {min_qty}")
  else if quantity > max_qty then (false, some s!"Quantity above maximum: {max_qty}")
  else (true, none)

end DataUtils

namespace DataValidator

/-- Record (row dict) of the sales table validated by
`production_validator.py`: the five configured required fields, each possibly
missing (`NaN` from pandas is `none`). -/
structure Record where
  product : Option String
  price : Option ℚ
  quantity : Option ℚ
  customer_id : Option String
  region : Option String
deriving DecidableEq

/-- Required-field test of `validate_record`:
`field not in record or pd.isna(record[field]) or record[field] == ''` for a
string-valued field. -/
def fieldMissing : Option String → Bool
  | none => true
  | some s => s == ""

/-- Required-field test for a numeric field: a number is missing iff it is
`NaN` (a number never equals `''`). -/
def numFieldMissing : Option ℚ → Bool
  | none => true
  | some _ => false

/-- Missing-required-field errors, in the configured order
`['product', 'price', 'quantity', 'customer_id', 'region']`. -/
def requiredFieldErrors (r : Record) : List String :=
  (if fieldMissing r.product then ["Missing required field: product"] else []) ++
  (if numFieldMissing r.price then ["Missing required field: price"] else []) ++
  (if numFieldMissing r.quantity then ["Missing required field: quantity"] else []) ++
  (if fieldMissing r.customer_id then ["Missing required field: customer_id"] else []) ++
  (if fieldMissing r.region then ["Missing required field: region"] else [])

/-- Method `DataValidator.validate_record` under the default configuration
(`price_min=0`, `price_max=1000000`, `quantity_min=1`, `quantity_max=10000`,
`valid_regions=['North','South','East','West']`,
`high_value_threshold=500000`).  Returns `(is_valid, errors, warnings)`;
missing required fields return early, an over-maximum quantity and a
high-value order only add warnings, and `is_valid` is `errors == []`. -/
def validate_record (r : Record) : Bool × List String × List String :=
  let reqErrs := requiredFieldErrors r
  if reqErrs = [] then
    let price := r.price.getD 0
    let priceErrs :=
      if price < 0 then [s!"Price below minimum: {price}"]
      else if price > 1000000 then [s!"Price above maximum: {price}"]
      else []
    let quantity := r.quantity.getD 0
    let quantityChecks : List String × List String :=
      if quantity < 1 then ([s!"Quantity below minimum: {quantity}"], [])
      else if quantity > 10000 then ([], [s!"Unusually high quantity: {quantity}"])
      else ([], [])
    let region := r.region.getD ""
    let regionErrs :=
      if region ∈ ["North", "South", "East", "West"] then []
      else [s!"Invalid region: {region}"]
    let revenue := price * quantity
    let highValueWarns :=
      if revenue > 500000 then [s!"High-value order: {revenue} - Requires approval"]
      else []
    let product := pyTrim (r.product.getD "")
    let productErrs := if product.length < 2 then ["Product name too short"] else []
    let customer_id := pyTrim (r.customer_id.getD "")
    let cidErrs :=
      if !startsL "C".toList customer_id.toList || customer_id.length < 4 then
        [s!"Invalid customer ID format: {customer_id}"]
      else []
    let errors := priceErrs ++ quantityChecks.1 ++ regionErrs ++ productErrs ++ cidErrs
    let warnings := quantityChecks.2 ++ highValueWarns
    (errors.isEmpty, errors, warnings)
  else (false, reqErrs, [])

/-- Invalid row as appended by `validate_dataframe`: the record with its
`record_num` and `errors` attached. -/
structure InvalidRecord where
  record : Record
  record_num : ℕ
  errors : List String
deriving DecidableEq

/-- Contents of `self.validation_results` (a fresh validator initialises
every counter to 0 and both logs to `[]`). -/
structure VResults where
  total_records : ℕ
  valid_records : ℕ
  invalid_records : ℕ
  errors : List (ℕ × String)
  warnings : List (ℕ × String)
deriving DecidableEq

/-- Loop body of `validate_dataframe` over the remaining records, with `n`
the `record_num` of the first of them (`idx + 1`): bump `total_records`,
validate, and route the record to the valid or invalid list, logging
warnings of valid records and errors of invalid ones with their record
numbers. -/
def vdfGo : ℕ → List Record → List Record × List InvalidRecord × VResults
  | _, [] => ([], [], ⟨0, 0, 0, [], []⟩)
  | n, r :: rs =>
    let res := validate_record r
    let rest := vdfGo (n + 1) rs
    if res.1 then
      (r :: rest.1, rest.2.1,
        ⟨rest.2.2.total_records + 1, rest.2.2.valid_records + 1, rest.2.2.invalid_records,
          rest.2.2.errors,
          res.2.2.map (fun w => (n, w)) ++ rest.2.2.warnings⟩)
    else
      (rest.1, ⟨r, n, res.2.1⟩ :: rest.2.1,
        ⟨rest.2.2.total_records + 1, rest.2.2.valid_records, rest.2.2.invalid_records + 1,
          res.2.1.map (fun e => (n, e)) ++ rest.2.2.errors,
          rest.2.2.warnings⟩)

/-- Method `DataValidator.validate_dataframe` on a freshly constructed validator
(counters at the constructor's zeros): iterates over the rows with
`record_num = idx + 1` and returns `(valid_df, invalid_df,
validation_results)`. -/
def validate_dataframe (rs : List Record) : List Record × List InvalidRecord × VResults :=
  vdfGo 1 rs

end DataValidator


/-!
Helper lemmas, followed by one theorem per claim (witnesses and
counterexamples where applicable).
-/

namespace DataCleaningPipeline

/-- Sorting with `insertionSort` yields a `≤`-sorted list. -/
theorem sortQ_sorted (xs : List ℚ) : (sortQ xs).Sorted (· ≤ ·) :=
  List.sorted_insertionSort (· ≤ ·) xs

/-- Entries of a sorted list are monotone in the index. -/
theorem sorted_getD_mono {s : List ℚ} (hs : s.Sorted (· ≤ ·)) {i j : ℕ}
    (hij : i ≤ j) (hj : j < s.length) : s.getD i 0 ≤ s.getD j 0 := by
  have hi : i < s.length := lt_of_le_of_lt hij hj
  rw [List.getD_eq_getElem _ _ hi, List.getD_eq_getElem _ _ hj]
  rcases Nat.eq_or_lt_of_le hij with rfl | hlt
  · exact le_refl _
  · exact hs.rel_get_of_lt (a := ⟨i, hi⟩) (b := ⟨j, hj⟩) hlt

/-- Linear interpolation on a sorted list is monotone in the position. -/
theorem interpQ_mono {s : List ℚ} (hs : s.Sorted (· ≤ ·)) (u v : ℕ)
    (huv : u ≤ v) (hv4 : v ≤ 4 * (s.length - 1)) (hlen : 1 ≤ s.length) :
    interpQ s u ≤ interpQ s v := by
  unfold interpQ
  set n := s.length with hn
  have hiq : u / 4 ≤ v / 4 := Nat.div_le_div_right huv
  have hvn : v / 4 ≤ n - 1 := by omega
  have hγ0 : (0 : ℚ) ≤ ((u % 4 : ℕ) : ℚ) / 4 := by positivity
  have hγ1 : ((u % 4 : ℕ) : ℚ) / 4 < 1 := by
    have : u % 4 < 4 := Nat.mod_lt _ (by norm_num)
    rw [div_lt_one (by norm_num)]
    exact_mod_cast this
  have hγ'0 : (0 : ℚ) ≤ ((v % 4 : ℕ) : ℚ) / 4 := by positivity
  have hγ'1 : ((v % 4 : ℕ) : ℚ) / 4 < 1 := by
    have : v % 4 < 4 := Nat.mod_lt _ (by norm_num)
    rw [div_lt_one (by norm_num)]
    exact_mod_cast this
  by_cases hB : v / 4 + 1 < n
  · have hA : u / 4 + 1 < n := by omega
    rw [if_pos hA, if_pos hB]
    rcases Nat.eq_or_lt_of_le hiq with heq | hlt
    · have hrr : u % 4 ≤ v % 4 := by omega
      have hγγ : ((u % 4 : ℕ) : ℚ) / 4 ≤ ((v % 4 : ℕ) : ℚ) / 4 := by
        apply div_le_div_of_nonneg_right ?_ (by norm_num)
        exact_mod_cast hrr
      rw [← heq]
      have hab : s.getD (u / 4) 0 ≤ s.getD (u / 4 + 1) 0 :=
        sorted_getD_mono hs (Nat.le_succ _) hA
      nlinarith [hγγ, hab]
    · have h1 : (1 - ((u % 4 : ℕ) : ℚ) / 4) * s.getD (u / 4) 0 +
          ((u % 4 : ℕ) : ℚ) / 4 * s.getD (u / 4 + 1) 0 ≤ s.getD (u / 4 + 1) 0 := by
        have hab : s.getD (u / 4) 0 ≤ s.getD (u / 4 + 1) 0 :=
          sorted_getD_mono hs (Nat.le_succ _) hA
        nlinarith [hγ0, hγ1.le, hab]
      have h2 : s.getD (u / 4 + 1) 0 ≤ s.getD (v / 4) 0 :=
        sorted_getD_mono hs hlt (by omega)
      have h3 : s.getD (v / 4) 0 ≤ (1 - ((v % 4 : ℕ) : ℚ) / 4) * s.getD (v / 4) 0 +
          ((v % 4 : ℕ) : ℚ) / 4 * s.getD (v / 4 + 1) 0 := by
        have hab : s.getD (v / 4) 0 ≤ s.getD (v / 4 + 1) 0 :=
          sorted_getD_mono hs (Nat.le_succ _) hB
        nlinarith [hγ'0, hγ'1.le, hab]
      linarith
  · rw [if_neg hB]
    by_cases hA : u / 4 + 1 < n
    · rw [if_pos hA]
      have h1 : (1 - ((u % 4 : ℕ) : ℚ) / 4) * s.getD (u / 4) 0 +
          ((u % 4 : ℕ) : ℚ) / 4 * s.getD (u / 4 + 1) 0 ≤ s.getD (u / 4 + 1) 0 := by
        have hab : s.getD (u / 4) 0 ≤ s.getD (u / 4 + 1) 0 :=
          sorted_getD_mono hs (Nat.le_succ _) hA
        nlinarith [hγ0, hγ1.le, hab]
      have h2 : s.getD (u / 4 + 1) 0 ≤ s.getD (n - 1) 0 :=
        sorted_getD_mono hs (by omega) (by omega)
      linarith
    · rw [if_neg hA]

/-- First quartile is at most the third quartile. -/
theorem quartiles_le {cs : List (Option ℚ)} {q1 q3 : ℚ}
    (h1 : quantileQuarters cs 1 = some q1) (h3 : quantileQuarters cs 3 = some q3) :
    q1 ≤ q3 := by
  unfold quantileQuarters at h1 h3
  have hss : (sortQ (nonNullQ cs)).Sorted (· ≤ ·) := sortQ_sorted (nonNullQ cs)
  set s := sortQ (nonNullQ cs) with hs
  by_cases hz : s.length = 0
  · simp [hz] at h1
  · simp only [hz, if_false] at h1 h3
    have hlen : 1 ≤ s.length := by omega
    have := interpQ_mono hss (1 * (s.length - 1))
      (3 * (s.length - 1)) (by omega) (by omega) hlen
    rw [Option.some.injEq] at h1 h3
    rw [← h1, ← h3]
    exact this

/-- Email pass and outlier capping commute columnwise: the outlier step does
not change a column's name or dtype, and on the error path both orders raise
the same `AttributeError`. -/
theorem emailStep_outlier_comm (c : Column) :
    emailStep (outlierCol c) = (emailStep c).map outlierCol := by
  cases c with
  | num n cs =>
    by_cases h : nameHas "email" n = true <;>
      simp [emailStep, outlierCol, Column.cname, h, Except.map]
  | str n cs =>
    by_cases h : nameHas "email" n = true <;>
      simp [emailStep, outlierCol, Column.cname, h, Except.map]

/-- Name pass and outlier capping commute columnwise. -/
theorem nameStep_outlier_comm (c : Column) :
    nameStep (outlierCol c) = (nameStep c).map outlierCol := by
  cases c with
  | num n cs =>
    by_cases h : nameHas "name" n = true <;>
      simp [nameStep, outlierCol, Column.cname, h, Except.map]
  | str n cs =>
    by_cases h : nameHas "name" n = true <;>
      simp [nameStep, outlierCol, Column.cname, h, Except.map]

/-- Columnwise commutation lifts through the abort-on-error column loop. -/
theorem tmapE_map_comm (f : Column → Except String Column) (g : Column → Column)
    (hfg : ∀ c, f (g c) = (f c).map g) :
    ∀ t : Table, tmapE f (t.map g) = (tmapE f t).map (List.map g) := by
  intro t
  induction t with
  | nil => simp [tmapE, Except.map]
  | cons c cs ih =>
    simp only [List.map_cons, tmapE, hfg c]
    cases hf : f c with
    | error e => simp [Except.map]
    | ok c' =>
      simp only [Except.map, ih]
      cases ht : tmapE f cs with
      | error e => simp [Except.map]
      | ok cs' => simp [Except.map]

/-- Column invariants survive a successful pass of the column loop. -/
theorem tmapE_preserves (P : Column → Bool) (f : Column → Except String Column)
    (hf : ∀ c c', f c = .ok c' → P c = true → P c' = true) :
    ∀ t t' : Table, tmapE f t = .ok t' → t.all P = true → t'.all P = true := by
  intro t
  induction t with
  | nil =>
    intro t' h _
    simp only [tmapE, Except.ok.injEq] at h
    subst h
    simp
  | cons c cs ih =>
    intro t' h hall
    simp only [tmapE] at h
    cases hf1 : f c with
    | error e => rw [hf1] at h; exact absurd h (by simp)
    | ok c' =>
      rw [hf1] at h
      cases hf2 : tmapE f cs with
      | error e => rw [hf2] at h; exact absurd h (by simp)
      | ok cs' =>
        rw [hf2] at h
        rw [Except.ok.injEq] at h
        subst h
        simp only [List.all_cons, Bool.and_eq_true] at hall ⊢
        exact ⟨hf c c' hf1 hall.1, ih cs' hf2 hall.2⟩

/-- Email pass keeps every column free of numeric phone columns. -/
theorem emailStep_preserves_phoneFree (c c' : Column)
    (h : emailStep c = .ok c')
    (hp : phoneFreeCol c = true) : phoneFreeCol c' = true := by
  cases c with
  | num n cs =>
    by_cases hm : nameHas "email" n = true
    · simp [emailStep, Column.cname, hm] at h
    · simp only [emailStep, Column.cname, hm, if_neg, Except.ok.injEq] at h
      simp at h
      rw [← h]
      exact hp
  | str n cs =>
    by_cases hm : nameHas "email" n = true <;>
      · simp only [emailStep, Column.cname, hm] at h
        simp at h
        rw [← h]
        simp [phoneFreeCol]

/-- Name pass keeps every column free of numeric phone columns. -/
theorem nameStep_preserves_phoneFree (c c' : Column)
    (h : nameStep c = .ok c')
    (hp : phoneFreeCol c = true) : phoneFreeCol c' = true := by
  cases c with
  | num n cs =>
    by_cases hm : nameHas "name" n = true
    · simp [nameStep, Column.cname, hm] at h
    · simp only [nameStep, Column.cname, hm, if_neg, Except.ok.injEq] at h
      simp at h
      rw [← h]
      exact hp
  | str n cs =>
    by_cases hm : nameHas "name" n = true <;>
      · simp only [nameStep, Column.cname, hm] at h
        simp at h
        rw [← h]
        simp [phoneFreeCol]

/-- Phone pass and outlier capping commute on a column that is not a numeric
phone column. -/
theorem phoneStep_outlier_comm (c : Column)
    (hp : phoneFreeCol c = true) :
    phoneStep (outlierCol c) = outlierCol (phoneStep c) := by
  cases c with
  | num n cs =>
    simp only [phoneFreeCol, Bool.not_eq_true'] at hp
    simp [phoneStep, outlierCol, Column.cname, hp]
  | str n cs =>
    by_cases hm : nameHas "phone" n = true <;>
      simp [phoneStep, outlierCol, Column.cname, hm]

/-- Phone pass and outlier capping commute on tables without numeric phone
columns. -/
theorem phonePass_outlier_comm (t : Table) (h : noNumericPhoneCol t = true) :
    phonePass (t.map outlierCol) = (phonePass t).map outlierCol := by
  induction t with
  | nil => simp [phonePass]
  | cons c cs ih =>
    simp only [noNumericPhoneCol, List.all_cons, Bool.and_eq_true] at h
    simp only [List.map_cons, phonePass, List.map_cons]
    have hc := phoneStep_outlier_comm c h.1
    have := ih (by simp [noNumericPhoneCol, h.2])
    simp only [phonePass] at this
    rw [hc, this]

/-- Frame lemma for the store: allocating a copy and mutating it does not
change the table at an existing reference. -/
theorem storeGetD_frame {σ : Store} {r : ℕ} (hr : r < σ.length) (t t' : Table) :
    ((σ ++ [t]).set σ.length t').getD r [] = σ.getD r [] := by
  rw [List.getD_eq_getElem?_getD, List.getElem?_set_ne (by omega),
    ← List.getD_eq_getElem?_getD, List.getD_append _ _ _ _ hr]

end DataCleaningPipeline

namespace APIClient

/-- Attempts made by the loop never exceed the attempt numbers offered. -/
theorem attemptLoop_tried_le (world : ℕ → Outcome) (n : ℕ) (l : List ℕ) :
    (attemptLoop world n l).2.2.length ≤ l.length := by
  induction l with
  | nil => simp [attemptLoop]
  | cons a rest ih =>
    cases hw : world a with
    | success b => simp [attemptLoop, hw]
    | httpError m => simp [attemptLoop, hw]
    | timeout =>
      by_cases ha : a = n
      · subst ha; simp [attemptLoop, hw]
      · simpa [attemptLoop, hw, ha] using Nat.succ_le_succ ih
    | reqError m =>
      by_cases ha : a = n
      · subst ha; simp [attemptLoop, hw]
      · simpa [attemptLoop, hw, ha] using Nat.succ_le_succ ih

/-- Characterisation of the retry loop on a contiguous block of attempt
numbers whose prefix is retryable: it sleeps `2^i` after each retryable
attempt `i`, stops at the first non-retryable outcome (or at the final
attempt `n`), and returns `stopResult` of the stopping outcome. -/
theorem attemptLoop_stop (world : ℕ → Outcome) (n : ℕ) :
    ∀ (k s a : ℕ), s ≤ a → a < s + k →
      (∀ i, s ≤ i → i < a → isRetryable (world i) = true) →
      (isRetryable (world a) = false ∨ a = n) →
      (∀ i, s ≤ i → i < a → i ≠ n) →
      attemptLoop world n (List.range' s k) =
        (stopResult (world a), (List.range' s (a - s)).map (2 ^ ·),
          List.range' s (a - s + 1)) := by
  intro k
  induction k with
  | zero => intro s a hsa hak _ _ _; omega
  | succ k ih =>
    intro s a hsa hak hretry hstop hne
    rw [List.range'_succ]
    rcases Nat.eq_or_lt_of_le hsa with heq | hlt
    · subst heq
      have hz : s - s = 0 := by omega
      cases hw : world s with
      | success b => simp [attemptLoop, hw, stopResult, hz, List.range'_succ]
      | httpError m => simp [attemptLoop, hw, stopResult, hz, List.range'_succ]
      | timeout =>
        have hsn : s = n := by
          rcases hstop with h | h
          · rw [hw] at h; simp [isRetryable] at h
          · exact h
        subst hsn
        simp [attemptLoop, hw, stopResult, hz, List.range'_succ]
      | reqError m =>
        have hsn : s = n := by
          rcases hstop with h | h
          · rw [hw] at h; simp [isRetryable] at h
          · exact h
        subst hsn
        simp [attemptLoop, hw, stopResult, hz, List.range'_succ]
    · have hsn : s ≠ n := hne s (le_refl s) hlt
      have hsr : isRetryable (world s) = true := hretry s (le_refl s) hlt
      have hrec := ih (s + 1) a hlt (by omega)
        (fun i h1 h2 => hretry i (by omega) h2) hstop
        (fun i h1 h2 => hne i (by omega) h2)
      have hd1 : a - s = (a - (s + 1)) + 1 := by omega
      cases hw : world s with
      | success b => rw [hw] at hsr; simp [isRetryable] at hsr
      | httpError m => rw [hw] at hsr; simp [isRetryable] at hsr
      | timeout =>
        simp only [attemptLoop, hw, if_neg hsn, hrec, hd1, List.range'_succ, List.map_cons]
      | reqError m =>
        simp only [attemptLoop, hw, if_neg hsn, hrec, hd1, List.range'_succ, List.map_cons]

end APIClient

namespace DataValidator

/-- Invariants of the validation loop: the counters count the processed
records and every record lands in exactly one of the two output lists,
according to `validate_record`. -/
theorem vdfGo_spec (rs : List Record) : ∀ n : ℕ,
    (vdfGo n rs).2.2.total_records = rs.length ∧
    (vdfGo n rs).2.2.total_records =
      (vdfGo n rs).2.2.valid_records + (vdfGo n rs).2.2.invalid_records ∧
    (vdfGo n rs).1 = rs.filter (fun r => (validate_record r).1) ∧
    (vdfGo n rs).2.1.map (fun ir => ir.record) =
      rs.filter (fun r => !(validate_record r).1) ∧
    (vdfGo n rs).1.length + (vdfGo n rs).2.1.length = rs.length := by
  induction rs with
  | nil => intro n; simp [vdfGo]
  | cons r rest ih =>
    intro n
    obtain ⟨h1, h2, h3, h4, h5⟩ := ih (n + 1)
    have h6 := congrArg List.length h3
    have h7 := congrArg List.length h4
    simp only [List.length_map] at h6 h7
    cases hv : (validate_record r).1
    · simp [vdfGo, hv, h1, h2, h3, h4]
      omega
    · simp [vdfGo, hv, h1, h2, h3, h4]
      omega

end DataValidator

namespace DataCleaningPipeline

/-- C1 (counterexample): the cleaning steps are not order-insensitive.  On
the one-column table `age = [1, NaN, 1]` with the default configuration,
`handle_missing_values` followed by `remove_duplicates` yields the single row
`[1]` (the `NaN` is filled with the median 1 first, making all three rows
duplicates), while `remove_duplicates` followed by `handle_missing_values`
yields the two rows `[1, 1]` — so this pair of steps does not commute. -/
theorem missing_then_dedup_order_sensitive :
    remove_duplicates (handle_missing_values [Column.num "age" [some 1, none, some 1]]) ≠
      handle_missing_values (remove_duplicates [Column.num "age" [some 1, none, some 1]]) := by
  have h1 : remove_duplicates (handle_missing_values [Column.num "age" [some 1, none, some 1]]) =
      [Column.num "age" [some 1]] := by
    norm_num [handle_missing_values, fillCol, fillNumCells, medianQ, quantileQuarters,
      sortQ, nonNullQ, interpQ, List.insertionSort, List.orderedInsert, List.filterMap,
      List.countP, List.countP.go, Option.getD, remove_duplicates, keepFlags, nRows,
      Column.clen, dupScan, rowAt, List.range, List.range.loop, filterCells, List.zip,
      List.zipWith]
  have h2 : handle_missing_values (remove_duplicates [Column.num "age" [some 1, none, some 1]]) =
      [Column.num "age" [some 1, some 1]] := by
    norm_num [handle_missing_values, fillCol, fillNumCells, medianQ, quantileQuarters,
      sortQ, nonNullQ, interpQ, List.insertionSort, List.orderedInsert, List.filterMap,
      List.countP, List.countP.go, Option.getD, remove_duplicates, keepFlags, nRows,
      Column.clen, dupScan, rowAt, List.range, List.range.loop, filterCells, List.zip,
      List.zipWith]
  rw [h1, h2]
  decide

/-- C1 (amended): the cleaning steps are not order-insensitive in general —
`handle_missing_values` and `remove_duplicates` disagree on some tables, so
`run` fixes an order.  Only steps acting on disjoint parts of the table
commute: `handle_outliers` (numeric columns) and `clean_text_data` (text
columns) commute, with the default configuration, on every table that has no
numeric phone-named column (on such a column the phone pass's `astype(str)`
silently turns numbers into strings, which `handle_outliers` would then skip,
breaking commutation). -/
theorem outliers_then_text_comm (t : Table) (h : noNumericPhoneCol t = true) :
    clean_text_data (handle_outliers t) = (clean_text_data t).map handle_outliers := by
  unfold clean_text_data handle_outliers
  rw [show emailPass (t.map outlierCol) = (emailPass t).map (List.map outlierCol) from
    tmapE_map_comm emailStep outlierCol emailStep_outlier_comm t]
  cases he : emailPass t with
  | error e => simp [Except.map]
  | ok t1 =>
    simp only [Except.map]
    have h1 : t1.all phoneFreeCol = true :=
      tmapE_preserves phoneFreeCol emailStep emailStep_preserves_phoneFree t t1 he h
    rw [show namePass (t1.map outlierCol) = (namePass t1).map (List.map outlierCol) from
      tmapE_map_comm nameStep outlierCol nameStep_outlier_comm t1]
    cases hn : namePass t1 with
    | error e => simp [Except.map]
    | ok t2 =>
      simp only [Except.map]
      have h2 : noNumericPhoneCol t2 = true :=
        tmapE_preserves phoneFreeCol nameStep nameStep_preserves_phoneFree t1 t2 hn h1
      rw [phonePass_outlier_comm t2 h2]

/-- C1 (witness): the amended commutation at a concrete phone-free table. -/
theorem outliers_then_text_comm_witness :
    clean_text_data (handle_outliers [Column.num "age" [some 5]]) =
      (clean_text_data [Column.num "age" [some 5]]).map handle_outliers :=
  outliers_then_text_comm [Column.num "age" [some 5]] (by decide)

/-- C2 (counterexample): the cleaning steps do not catch library exceptions.
On a numeric column named `email`, `clean_text_data` applies the `.str`
accessor to a numeric column; pandas raises `AttributeError` and the step —
which contains no exception handler — propagates it to its caller instead of
returning. -/
theorem clean_text_data_raises_on_numeric_email :
    clean_text_data [Column.num "email" [some 1]] = .error strAccessorMsg := by
  decide

/-- C2 (amended): no cleaning step of `DataCleaningPipeline` contains an
exception handler; a library exception raised on malformed input inside
`clean_text_data` propagates unchanged out of the step and out of `run`
(there is no retry). -/
theorem clean_text_error_propagates (t : Table) (e : String)
    (h : clean_text_data (handle_outliers (remove_duplicates (handle_missing_values t))) =
      .error e) :
    (run t).1 = .error e := by
  unfold run
  simp [h]

/-- C2 (witness): the propagation at a concrete table whose `email` column is
numeric. -/
theorem clean_text_error_propagates_witness :
    (run [Column.num "email" [some 1]]).1 = .error strAccessorMsg := by
  refine clean_text_error_propagates [Column.num "email" [some 1]] strAccessorMsg ?_
  have hm : nameHas "email" "email" = true := by decide
  norm_num [clean_text_data, emailPass, tmapE, emailStep, hm,
    Column.cname, handle_outliers, outlierCol, clipOutlierCells, quantileQuarters,
    sortQ, nonNullQ, interpQ, List.insertionSort, List.orderedInsert, List.filterMap,
    List.countP, List.countP.go, defaultConfig, remove_duplicates, keepFlags, nRows,
    Column.clen, dupScan, rowAt, List.range, List.range.loop, filterCells, List.zip,
    List.zipWith, handle_missing_values, fillCol, fillNumCells, medianQ]

/-- C3: `run` applies the steps exactly once each in the fixed order
`analyze_data_quality`, `handle_missing_values`, `remove_duplicates`,
`handle_outliers`, `clean_text_data`, `optimize_data_types` (witnessed by the
`log_step` entries of the report), and the table it returns equals the
composition of the five transforming steps, in that order, applied to the
input. -/
theorem run_is_fixed_composition (t : Table) :
    (run t).1 =
      Except.map optimize_data_types
        (clean_text_data (handle_outliers (remove_duplicates (handle_missing_values t)))) ∧
    ((run t).1.isOk = true →
      (run t).2 = ["analyze_quality", "handle_missing", "remove_duplicates",
        "handle_outliers", "clean_text", "optimize_types"]) := by
  unfold run
  cases h : clean_text_data (handle_outliers (remove_duplicates (handle_missing_values t))) with
  | error e => simp [h, Except.map, Except.isOk, Except.toBool]
  | ok t4 => simp [h, Except.map, Except.isOk, Except.toBool]

/-- C3 (witness): the full six-step log at a concrete table on which the
pipeline succeeds. -/
theorem run_is_fixed_composition_witness :
    (run [Column.num "age" [some 1]]).2 = ["analyze_quality", "handle_missing",
      "remove_duplicates", "handle_outliers", "clean_text", "optimize_types"] := by
  refine (run_is_fixed_composition [Column.num "age" [some 1]]).2 ?_
  rw [(run_is_fixed_composition [Column.num "age" [some 1]]).1]
  norm_num [Except.map, phonePass, phoneStep, clean_text_data, emailPass, namePass, tmapE,
    emailStep, nameStep, nameHas, pyLower, hasSubL, startsL, Column.cname, handle_outliers,
    outlierCol, clipOutlierCells, quantileQuarters, sortQ, nonNullQ, interpQ,
    List.insertionSort, List.orderedInsert, List.filterMap, List.countP, List.countP.go,
    defaultConfig, remove_duplicates, keepFlags, nRows, Column.clen, dupScan, rowAt,
    List.range, List.range.loop, filterCells, List.zip, List.zipWith, handle_missing_values,
    fillCol, fillNumCells, medianQ, Except.isOk, Except.toBool]

/-- C4: each transforming step returns a new frame and leaves its input frame
unchanged.  At the store level, every step allocates (a copy or the frame
built by `drop_duplicates`) at a fresh reference and mutates only that fresh
frame — even when `clean_text_data` aborts with an exception mid-loop — so
the table at the input reference is identical before and after the call, and
the returned reference is distinct from the input one. -/
theorem steps_leave_input_unchanged (σ : Store) (r : ℕ) (hr : r < σ.length) :
    ((handleMissingMut σ r).1.getD r [] = σ.getD r [] ∧ (handleMissingMut σ r).2 ≠ r) ∧
    ((removeDuplicatesMut σ r).1.getD r [] = σ.getD r [] ∧ (removeDuplicatesMut σ r).2 ≠ r) ∧
    ((handleOutliersMut σ r).1.getD r [] = σ.getD r [] ∧ (handleOutliersMut σ r).2 ≠ r) ∧
    ((cleanTextMut σ r).1.getD r [] = σ.getD r [] ∧
      ∀ rc, (cleanTextMut σ r).2 = .ok rc → rc ≠ r) ∧
    ((optimizeMut σ r).1.getD r [] = σ.getD r [] ∧ (optimizeMut σ r).2 ≠ r) := by
  have hne : σ.length ≠ r := by omega
  refine ⟨⟨storeGetD_frame hr _ _, ?_⟩, ⟨?_, ?_⟩, ⟨storeGetD_frame hr _ _, ?_⟩, ⟨?_, ?_⟩,
    ⟨storeGetD_frame hr _ _, ?_⟩⟩
  · exact hne
  · simp only [removeDuplicatesMut, List.getD_eq_getElem?_getD]
    rw [List.getElem?_append_left hr]
  · exact hne
  · exact hne
  · simp only [cleanTextMut]
    cases h : clean_text_data (σ.getD r []) with
    | ok t => exact storeGetD_frame hr _ _
    | error e => exact storeGetD_frame hr _ _
  · simp only [cleanTextMut]
    cases h : clean_text_data (σ.getD r []) with
    | ok t =>
      intro rc hrc
      simp at hrc
      omega
    | error e =>
      intro rc hrc
      simp at hrc
  · exact hne

/-- C4 (witness): the frame property at a one-frame store. -/
theorem steps_leave_input_unchanged_witness :
    ((handleMissingMut [[Column.num "a" [some 1]]] 0).1.getD 0 [] =
        ([[Column.num "a" [some 1]]] : Store).getD 0 [] ∧
      (handleMissingMut [[Column.num "a" [some 1]]] 0).2 ≠ 0) ∧
    ((removeDuplicatesMut [[Column.num "a" [some 1]]] 0).1.getD 0 [] =
        ([[Column.num "a" [some 1]]] : Store).getD 0 [] ∧
      (removeDuplicatesMut [[Column.num "a" [some 1]]] 0).2 ≠ 0) ∧
    ((handleOutliersMut [[Column.num "a" [some 1]]] 0).1.getD 0 [] =
        ([[Column.num "a" [some 1]]] : Store).getD 0 [] ∧
      (handleOutliersMut [[Column.num "a" [some 1]]] 0).2 ≠ 0) ∧
    ((cleanTextMut [[Column.num "a" [some 1]]] 0).1.getD 0 [] =
        ([[Column.num "a" [some 1]]] : Store).getD 0 [] ∧
      ∀ rc, (cleanTextMut [[Column.num "a" [some 1]]] 0).2 = .ok rc → rc ≠ 0) ∧
    ((optimizeMut [[Column.num "a" [some 1]]] 0).1.getD 0 [] =
        ([[Column.num "a" [some 1]]] : Store).getD 0 [] ∧
      (optimizeMut [[Column.num "a" [some 1]]] 0).2 ≠ 0) :=
  steps_leave_input_unchanged [[Column.num "a" [some 1]]] 0 (by norm_num)

/-- C5: with the default configuration (`method='iqr'`, `threshold=1.5`),
every present value of a numeric column of the table returned by
`handle_outliers` lies within `[Q1 - 1.5·IQR, Q3 + 1.5·IQR]`, where `Q1` and
`Q3` are the quartiles of that column in the input table and
`IQR = Q3 - Q1`: outliers are capped to the bounds, not removed, and values
already inside the interval stay there. -/
theorem handle_outliers_bounds (t : Table) (i : ℕ) (nm : String) (cs : List (Option ℚ))
    (q1 q3 v : ℚ)
    (ht : t.getD i (.num "" []) = .num nm cs)
    (hq1 : quantileQuarters cs 1 = some q1)
    (hq3 : quantileQuarters cs 3 = some q3)
    (hv : some v ∈ ((handle_outliers t).getD i (.num "" [])).numCells) :
    q1 - (3/2) * (q3 - q1) ≤ v ∧ v ≤ q3 + (3/2) * (q3 - q1) := by
  by_cases hi : i < t.length
  · have hmap : (handle_outliers t).getD i (.num "" []) = outlierCol (t.getD i (.num "" [])) := by
      rw [List.getD_eq_getElem _ _ (by simpa [handle_outliers] using hi),
        List.getD_eq_getElem _ _ hi]
      simp [handle_outliers]
    rw [hmap, ht] at hv
    simp only [outlierCol, Column.numCells] at hv
    unfold clipOutlierCells at hv
    rw [hq1, hq3] at hv
    dsimp only [] at hv
    have hq13 : q1 ≤ q3 := quartiles_le hq1 hq3
    have hlohi : q1 - defaultConfig.outlier_threshold * (q3 - q1) ≤
        q3 + defaultConfig.outlier_threshold * (q3 - q1) := by
      simp only [defaultConfig]
      nlinarith [hq13]
    split at hv
    · rcases List.mem_map.mp hv with ⟨c, hcmem, hcv⟩
      cases c with
      | none => exact Option.noConfusion hcv
      | some w =>
        rw [Option.map_some', Option.some.injEq] at hcv
        have h1 : v ≤ q3 + defaultConfig.outlier_threshold * (q3 - q1) := by
          rw [← hcv]; exact min_le_right _ _
        have h2 : q1 - defaultConfig.outlier_threshold * (q3 - q1) ≤ v := by
          rw [← hcv]
          exact le_min (le_max_right _ _) hlohi
        constructor
        · simpa [defaultConfig] using h2
        · simpa [defaultConfig] using h1
    · rename_i hc
      simp only [gt_iff_lt, Nat.not_lt, Nat.le_zero] at hc
      have hall := List.countP_eq_zero.mp hc _ hv
      simp only [decide_eq_true_eq, not_or, not_lt] at hall
      constructor
      · simpa [defaultConfig] using hall.1
      · simpa [defaultConfig] using hall.2
  · exfalso
    rw [List.getD_eq_default _ _ (by omega)] at ht
    have : cs = [] := by
      injection ht with h1 h2
      exact h2.symm
    subst this
    simp [quantileQuarters, sortQ, nonNullQ, List.insertionSort] at hq1

/-- C5 (witness): on the column `[0, 0, 0, 100]` the quartiles are `Q1 = 0`
and `Q3 = 25`, the value `100` is capped to the upper bound `62.5`, and the
capped value lies within the bounds. -/
theorem handle_outliers_bounds_witness :
    (0 : ℚ) - (3/2) * (25 - 0) ≤ 125/2 ∧ (125/2 : ℚ) ≤ 25 + (3/2) * (25 - 0) := by
  refine handle_outliers_bounds [Column.num "salary" [some 0, some 0, some 0, some 100]] 0
    "salary" [some 0, some 0, some 0, some 100] 0 25 (125/2) rfl ?_ ?_ ?_
  · norm_num [quantileQuarters, sortQ, nonNullQ, interpQ, List.insertionSort,
      List.orderedInsert, List.filterMap]
  · norm_num [quantileQuarters, sortQ, nonNullQ, interpQ, List.insertionSort,
      List.orderedInsert, List.filterMap]
  · norm_num [handle_outliers, outlierCol, clipOutlierCells, quantileQuarters, sortQ,
      nonNullQ, interpQ, List.insertionSort, List.orderedInsert, List.filterMap,
      List.countP, List.countP.go, defaultConfig, Option.map, Column.numCells]

end DataCleaningPipeline

namespace APIClient

/-- C6: `_make_request` retries with simple exponential backoff.  It makes at
most `max_retries` attempts; on a timeout or generic request error at a
non-final attempt `a` it sleeps `2^a` seconds and retries, re-raising the
exception when the failure occurs on the final attempt; on an HTTP-error
status it raises immediately without retrying; and on success it returns the
parsed JSON body (or `{'text': body}` when the body is not JSON) — all
captured by `stopResult` at the first non-retryable (or final) attempt. -/
theorem make_request_spec :
    (∀ (world : ℕ → Outcome) (n : ℕ), (make_request world n).2.2.length ≤ n) ∧
    (∀ (world : ℕ → Outcome) (n a : ℕ), 1 ≤ a → a ≤ n →
      (∀ i, 1 ≤ i → i < a → isRetryable (world i) = true) →
      (isRetryable (world a) = false ∨ a = n) →
      make_request world n =
        (stopResult (world a), (List.range' 1 (a - 1)).map (2 ^ ·), List.range' 1 a)) := by
  constructor
  · intro world n
    simpa using attemptLoop_tried_le world n (List.range' 1 n)
  · intro world n a h1 han hretry hstop
    have h := attemptLoop_stop world n n 1 a h1 (by omega) hretry hstop
      (fun i hi1 hia => by omega)
    rw [make_request, h]
    have h2 : a - 1 + 1 = a := by omega
    rw [h2]

/-- C6 (witness): with `max_retries = 3` and a world that times out on the
first attempt and succeeds on the second, the client sleeps `2^1 = 2`
seconds, makes attempts 1 and 2, and returns the parsed JSON body. -/
theorem make_request_spec_witness :
    make_request
        (fun a => if a = 1 then Outcome.timeout else .success (.jsonBody "prices")) 3 =
      (.ok (.jsonVal "prices"), [2], [1, 2]) := by
  have h := make_request_spec.2
    (fun a => if a = 1 then Outcome.timeout else .success (.jsonBody "prices"))
    3 2 (by norm_num) (by norm_num)
    (fun i h1 h2 => by
      have : i = 1 := by omega
      simp [this, isRetryable])
    (Or.inl (by simp [isRetryable]))
  simpa [stopResult, parseBody, List.range'] using h

end APIClient

namespace Calculators

/-- C7: `calculate_profit_margin(revenue, cost)` returns
`(revenue - cost) / revenue` for every `revenue ≠ 0`, returns `0.0` when
`revenue = 0`, and in particular returns `0.4` for revenue 1000 and cost
600. -/
theorem calculate_profit_margin_spec (revenue cost : ℚ) :
    (revenue ≠ 0 → calculate_profit_margin revenue cost = (revenue - cost) / revenue) ∧
    calculate_profit_margin 0 cost = 0 ∧
    calculate_profit_margin 1000 600 = 2/5 := by
  refine ⟨?_, ?_, ?_⟩
  · intro h
    simp [calculate_profit_margin, calculate_profit, h]
  · simp [calculate_profit_margin]
  · norm_num [calculate_profit_margin, calculate_profit]

/-- C7 (witness): the general formula applied at revenue 1000, cost 600. -/
theorem calculate_profit_margin_spec_witness :
    calculate_profit_margin 1000 600 = (1000 - 600) / 1000 :=
  (calculate_profit_margin_spec 1000 600).1 (by norm_num)

/-- C8: `calculate_discount(p, d)` returns exactly the pair
`(p - p·(d/100), p·(d/100))`, and consequently
`discounted_price + discount_amount = p`, exactly over rational
arithmetic. -/
theorem calculate_discount_spec (p d : ℚ) :
    calculate_discount p d = (p - p * (d / 100), p * (d / 100)) ∧
    (calculate_discount p d).1 + (calculate_discount p d).2 = p := by
  constructor
  · rfl
  · simp [calculate_discount]

end Calculators

namespace DataValidator

/-- C9: `validate_dataframe` (on a freshly constructed validator) partitions
its input: `total_records` equals the number of input rows and equals
`valid_records + invalid_records`, the valid table is exactly the sublist of
rows accepted by `validate_record`, the invalid table is exactly the sublist
of rejected rows (each carrying its `record_num` and errors), and the two
output lengths sum to the input length — every row lands in exactly one of
the two tables. -/
theorem validate_dataframe_partitions (rs : List Record) :
    (validate_dataframe rs).2.2.total_records = rs.length ∧
    (validate_dataframe rs).2.2.total_records =
      (validate_dataframe rs).2.2.valid_records +
        (validate_dataframe rs).2.2.invalid_records ∧
    (validate_dataframe rs).1 = rs.filter (fun r => (validate_record r).1) ∧
    (validate_dataframe rs).2.1.map (fun ir => ir.record) =
      rs.filter (fun r => !(validate_record r).1) ∧
    (validate_dataframe rs).1.length + (validate_dataframe rs).2.1.length = rs.length :=
  vdfGo_spec rs 1

/-- C10: `DataValidator.validate_record` treats an over-maximum quantity as a
warning, not an error — a record satisfying every other rule whose quantity
exceeds `quantity_max = 10000` is returned valid, with a nonempty warning
list — whereas `validators.validate_quantity` returns invalid for the same
quantity. -/
theorem over_max_quantity_warns (r : Record) (p cid rg : String) (pr : ℚ) (q : ℤ)
    (hp : r.product = some p) (hpne : p ≠ "") (hpl : 2 ≤ (pyTrim p).length)
    (hpr : r.price = some pr) (hpr0 : 0 ≤ pr) (hpr1 : pr ≤ 1000000)
    (hq : r.quantity = some ((q : ℚ))) (hq1 : 1 ≤ q) (hqmax : 10000 < q)
    (hc : r.customer_id = some cid) (hcne : cid ≠ "")
    (hcs : startsL "C".toList (pyTrim cid).toList = true)
    (hcl : 4 ≤ (pyTrim cid).length)
    (hr : r.region = some rg) (hrg : rg ∈ ["North", "South", "East", "West"]) :
    (validate_record r).1 = true ∧
    (validate_record r).2.2 ≠ [] ∧
    (DataUtils.validate_quantity q 1 10000).1 = false := by
  have hrgne : rg ≠ "" := by
    have h := hrg
    simp only [List.mem_cons, List.not_mem_nil, or_false] at h
    rcases h with h | h | h | h <;> (subst h; decide)
  have hcs' : startsL ['C'] (pyTrim cid).data = true := hcs
  have hq1' : ¬ ((q : ℚ) < 1) := by
    rw [not_lt]
    exact_mod_cast hq1
  have hqmax' : (10000 : ℚ) < (q : ℚ) := by exact_mod_cast hqmax
  refine ⟨?_, ?_, ?_⟩
  · simp [validate_record, requiredFieldErrors, fieldMissing, numFieldMissing,
      hp, hpr, hq, hc, hr, hpne, hcne, hrgne, not_lt.mpr hpr0, not_lt.mpr hpr1,
      hq1', hqmax', hrg, not_lt.mpr hpl, hcs', not_lt.mpr hcl]
  · simp [validate_record, requiredFieldErrors, fieldMissing, numFieldMissing,
      hp, hpr, hq, hc, hr, hpne, hcne, hrgne, hq1', hqmax']
  · have h1 : ¬ (q < 1) := by omega
    have h2 : 10000 < q := by omega
    simp [DataUtils.validate_quantity, h1, h2]

/-- C10 (witness): the speaker record of the test dataset with quantity
15000 — valid with a warning in the pipeline validator, rejected by the
utility validator. -/
theorem over_max_quantity_warns_witness :
    (validate_record
        ⟨some "Speaker", some 5000, some 15000, some "C008", some "North"⟩).1 = true ∧
    (validate_record
        ⟨some "Speaker", some 5000, some 15000, some "C008", some "North"⟩).2.2 ≠ [] ∧
    (DataUtils.validate_quantity 15000 1 10000).1 = false := by
  refine over_max_quantity_warns _ "Speaker" "C008" "North" 5000 15000
    rfl (by decide) (by decide) rfl (by norm_num) (by norm_num)
    (by norm_num) (by norm_num) (by norm_num)
    rfl (by decide) (by decide) (by decide) rfl (by decide)

end DataValidator
